import Mathlib

/-!
# Verification of the subtitle search / recommendation engine

A shallow embedding, in Lean 4, of the TF-IDF search engine of this
repository (`moteur_recherche.py`, `modules/engine.py`) together with
theorems settling the frozen specification claims.

Conventions of the embedding:

* Python strings become `String`; the character-level work is done on
  `String.data : List Char`.
* Python floats become `ℚ` in the scoring layer (all the constants of the
  scoring code — `3.0`, `15.0`, `5.0`, `0.75`, `0.15`, `0.001` — are exactly
  representable in binary floating point, and the integer counts involved
  are tiny, so the float comparisons of the code coincide with the exact
  rational ones), and `ℝ` in the vector-space layer, where logarithms and
  square roots occur.
* The calls into the external `scikit-learn` library
  (`TfidfVectorizer.transform` / `cosine_similarity`) are modelled as an
  oracle parameter in the scoring layer, since none of the ranking logic
  depends on their values; the vector-space layer then models the library's
  documented semantics (sub-linear tf, smoothed idf, L2 normalisation)
  explicitly over `ℝ`.
* `numpy.argsort` on the negated order (`scores.argsort()[::-1]`) is
  modelled as an insertion sort by descending score.  numpy's quicksort
  leaves the order of equal scores unspecified; no theorem below depends on
  the order of ties.
-/

/-! ## Text normalisation (`nettoyer`) -/

/-- The accented characters preserved by the cleaning regex of `nettoyer`
(`[^a-z0-9àâçéèêëîïôûùüÿñæœ\s]`). -/
def lettresAccentuees : List Char :=
  ['à', 'â', 'ç', 'é', 'è', 'ê', 'ë', 'î', 'ï', 'ô', 'û', 'ù', 'ü', 'ÿ', 'ñ', 'æ', 'œ']

/-- Lower-casing of one character, as Python `str.lower` acts on the
characters reachable here: ASCII letters and the Latin-1 uppercase letters
whose lowercase forms appear in `lettresAccentuees`. -/
def abaisserChar (c : Char) : Char :=
  if 'A' ≤ c ∧ c ≤ 'Z' then Char.ofNat (c.toNat + 32)
  else if 'À' ≤ c ∧ c ≤ 'Þ' ∧ c ≠ '×' then Char.ofNat (c.toNat + 32)
  else if c = 'Ÿ' then 'ÿ'
  else if c = 'Œ' then 'œ'
  else c

/-- Whitespace in the sense of the `\s` class of the cleaning regex. -/
def estEspace (c : Char) : Bool :=
  c = ' ' ∨ c = '\t' ∨ c = '\n' ∨ c = '\x0d' ∨ c = '\x0b' ∨ c = '\x0c'

/-- A character kept (rather than replaced by a space) by the regex
`[^a-z0-9àâçéèêëîïôûùüÿñæœ\s]` after lower-casing. -/
def estGarde (c : Char) : Bool :=
  ('a' ≤ c ∧ c ≤ 'z') ∨ ('0' ≤ c ∧ c ≤ '9') ∨ c ∈ lettresAccentuees

/-- Collapse every run of whitespace to a single `' '`
(the `re.sub(r"\s+", " ", ...)` step). -/
def fusionnerEspaces (l : List Char) : List Char :=
  l.foldr
    (fun c acc =>
      if estEspace c then (if acc.head? = some ' ' then acc else ' ' :: acc)
      else c :: acc) []

/-- Strip leading and trailing spaces (the `.strip()` step; after
`fusionnerEspaces` the only whitespace left is `' '`). -/
def rognerEspaces (l : List Char) : List Char :=
  ((l.dropWhile (· = ' ')).reverse.dropWhile (· = ' ')).reverse

/-- `nettoyer` of `moteur_recherche.py`: lowercase, replace every character
outside `[a-z0-9àâçéèêëîïôûùüÿñæœ\s]` by a space, collapse whitespace runs,
strip. -/
def nettoyer (texte : String) : String :=
  let bas := texte.data.map abaisserChar
  let rempl := bas.map (fun c => if estEspace c then c else if estGarde c then c else ' ')
  String.mk (rognerEspaces (fusionnerEspaces rempl))

/-! ## Generic string helpers mirroring the Python operators -/

/-- Python's `needle in hay` on strings: literal substring test. -/
def contientSousChaine (hay needle : String) : Bool :=
  hay.data.tails.any (fun t => needle.data.isPrefixOf t)

/-- Python's `s.startswith(p)`. -/
def commencePar (s p : String) : Bool :=
  p.data.isPrefixOf s.data

/-- Python's `s.endswith(suf)`. -/
def finitPar (s suf : String) : Bool :=
  suf.data.isSuffixOf s.data

/-- Python's whitespace `str.split()` (no argument): split on runs of
whitespace, discarding empty fields. -/
def decouperMots (s : String) : List String :=
  ((s.data.splitOn ' ').filter (fun w => !w.isEmpty)).map String.mk

/-- Python's `" ".join(ws)`. -/
def joindreEspaces (ws : List String) : String :=
  String.mk (List.intercalate [' '] (ws.map String.data))

/-- Python's `s.strip() == ""`: the string contains only whitespace. -/
def chaineBlanche (s : String) : Bool :=
  s.data.all estEspace

/-! ## The query-enrichment table -/

/-- `TRADUCTION_ENRICHISSEMENT` of `moteur_recherche.py`, verbatim. -/
def TRADUCTION_ENRICHISSEMENT : List (String × String) :=
  [("ile", "island"), ("avion", "plane"), ("vol", "flight"), ("crash", "wreck"),
   ("méth", "meth"), ("drogue", "drug"), ("hopital", "hospital"),
   ("docteur", "doctor"), ("médecin", "doctor")]

/-- The Python construction `set(mots)` followed by
`for mot in mots: if mot in TRADUCTION_ENRICHISSEMENT: set.add(...)`,
modelled as a first-occurrence-ordered duplicate-free list.  CPython's set
iteration order is unspecified; every use below is order-insensitive except
the join into `requete_enrichie`, whose n-gram consequences no theorem
depends on. -/
def motsEnrichis (orig : List String) : List String :=
  let base := orig.foldl (fun acc m => if m ∈ acc then acc else acc ++ [m]) []
  orig.foldl
    (fun acc m =>
      match TRADUCTION_ENRICHISSEMENT.lookup m with
      | some t => if t ∈ acc then acc else acc ++ [t]
      | none => acc) base

/-! ## The engine state visible to the scoring code

`Moteur.__init__` stores `corpus` (a dict, hence duplicate-free keys),
`series = list(corpus.keys())`, `documents = list(corpus.values())`, and
`idf_map` (term → fitted idf weight, built from the vectorizer).  The
fitted idf table is an input here because it is produced by the external
`TfidfVectorizer`; `Option ℚ` models presence in the vocabulary and
`Moteur.idfValeur` models the `dict.get(mot, 1.0)` lookup. -/

structure Moteur where
  corpus : List (String × String)
  idf_map : String → Option ℚ

def Moteur.series (m : Moteur) : List String := m.corpus.map Prod.fst

def Moteur.documents (m : Moteur) : List String := m.corpus.map Prod.snd

def Moteur.nb_series (m : Moteur) : ℕ := m.corpus.length

/-- `self.idf_map.get(mot, 1.0)`. -/
def Moteur.idfValeur (m : Moteur) (mot : String) : ℚ :=
  (m.idf_map mot).getD 1

/-! ## `Moteur.rechercher`: hybrid scoring -/

def W_TFIDF : ℚ := 3
def W_IDF_CONTEXTE : ℚ := 15
def W_ICONIQUE_BOOST : ℚ := 5
def W_TITRE_MATCH : ℚ := 3

/-- The noise threshold `0.001` of the ranking loop. -/
def seuilBruit : ℚ := 1 / 1000

/-- `mots_requete_originaux = requete_nettoyee.split()`. -/
def motsOriginaux (requete : String) : List String :=
  decouperMots (nettoyer requete)

/-- `requete_enrichie = " ".join(mots_enrichis_set)`. -/
def requeteEnrichie (requete : String) : String :=
  joindreEspaces (motsEnrichis (motsOriginaux requete))

/-- `normalisation_mots = len(mots_requete_originaux) if ... > 0 else 1`. -/
def normalisationMots (orig : List String) : ℕ :=
  if 0 < orig.length then orig.length else 1

/-- The `mots_trouves` counter of the per-title loop: how many terms of the
enriched query set occur as literal substrings of document `i`. -/
def motsTrouves (m : Moteur) (enrichis : List String) (i : ℕ) : ℕ :=
  (enrichis.filter (fun mot => contientSousChaine (m.documents.getD i "") mot)).length

/-- The `total_idf_match` accumulator: for every enriched term found as a
substring of document `i`, add `idf_map.get(mot, 1.0)`. -/
def totalIdfMatch (m : Moteur) (enrichis : List String) (i : ℕ) : ℚ :=
  enrichis.foldl
    (fun acc mot =>
      if contientSousChaine (m.documents.getD i "") mot = true then
        acc + m.idfValeur mot
      else acc) 0

/-- `bonus_contexte_idf[i] = total_idf_match / normalisation_mots`. -/
def bonusContexteIdf (m : Moteur) (orig enrichis : List String) (i : ℕ) : ℚ :=
  totalIdfMatch m enrichis i / (normalisationMots orig : ℚ)

/-- The direct title boost: if the space-joined original query is a
substring of the slug, or the slug starts with it, award
`W_TITRE_MATCH * normalisation_mots`. -/
def bonusTitre (orig : List String) (slug : String) : ℚ :=
  if 1 ≤ normalisationMots orig then
    let query_match := joindreEspaces orig
    if contientSousChaine slug query_match ∨ commencePar slug query_match then
      W_TITRE_MATCH * (normalisationMots orig : ℚ)
    else 0
  else 0

def motsLost : List String := ["ile", "avion", "crash", "island", "plane", "wreck"]
def motsMeth : List String := ["meth", "drogue"]
def motsHouse : List String := ["hopital", "docteur", "doctor"]

/-- The iconic/thematic boost.  The source assigns `W_ICONIQUE_BOOST` in up
to three sequential `if`s guarded by the same threshold; since all three
assign the same constant this is equivalent to one guarded disjunction.
Note the threshold compares `mots_trouves` against
`normalisation_mots * 0.75`, i.e. 75 % of the count of *original* query
terms. -/
def bonusIconique (m : Moteur) (orig enrichis : List String) (i : ℕ) : ℚ :=
  if (normalisationMots orig : ℚ) * (3 / 4) ≤ (motsTrouves m enrichis i : ℚ) then
    let slug := m.series.getD i ""
    if (motsLost.any (fun k => k ∈ orig) ∧ contientSousChaine slug "lost" = true)
        ∨ (motsMeth.any (fun k => k ∈ orig) ∧ contientSousChaine slug "breakingbad" = true)
        ∨ (motsHouse.any (fun k => k ∈ orig) ∧ contientSousChaine slug "house" = true) then
      W_ICONIQUE_BOOST
    else 0
  else 0

/-- The combined score of title `i`:
`scores_tfidf[i]*W_TFIDF + bonus_contexte_idf[i]*W_IDF_CONTEXTE +
bonus_iconique[i] + bonus_titre[i]`.  `sim` is the cosine-similarity row
computed by the external vectorizer on the enriched query. -/
def scoreCombine (m : Moteur) (sim : ℕ → ℚ) (orig enrichis : List String) (i : ℕ) : ℚ :=
  sim i * W_TFIDF + bonusContexteIdf m orig enrichis i * W_IDF_CONTEXTE
    + bonusIconique m orig enrichis i + bonusTitre orig (m.series.getD i "")

/-- `scores.argsort()[::-1]`: the indices `0 .. n-1` ordered by descending
score (ties in an unspecified order in numpy; none of the theorems below
depends on tie order). -/
def ordreDecroissant (n : ℕ) (score : ℕ → ℚ) : List ℕ :=
  (List.range n).insertionSort (fun a b => score b ≤ score a)

/-- The shared shape of the three ranking loops of the source
(`rechercher`, `recommander_par_similarite`, `recommander_par_profil`):
walk the sorted indices, append `item i` whenever `garde i`, and stop as
soon as `top_k ≤ len(resultats)` — the bound is tested *after* the
append. -/
def boucleTri {α : Type} (top_k : ℤ) (garde : ℕ → Bool) (item : ℕ → α) :
    List ℕ → List α → List α
  | [], acc => acc
  | i :: rest, acc =>
    let acc' := if garde i then acc ++ [item i] else acc
    if top_k ≤ (acc'.length : ℤ) then acc' else boucleTri top_k garde item rest acc'

/-- The per-result `details` dictionary, exactly as the source builds it:
`{'tfidf': scores_tfidf[i], 'exact': bonus_contexte_idf[i],
'frequence': 0.0, 'contexte': bonus_contexte_idf[i]}`. -/
def formatDetails (m : Moteur) (sim : ℕ → ℚ) (orig enrichis : List String) (i : ℕ) :
    List (String × ℚ) :=
  [("tfidf", sim i), ("exact", bonusContexteIdf m orig enrichis i),
   ("frequence", 0), ("contexte", bonusContexteIdf m orig enrichis i)]

/-- One returned search result: `(slug, combined score, details)`. -/
abbrev Resultat := String × ℚ × List (String × ℚ)

/-- `Moteur.rechercher`.  `simOracle` stands for the external pipeline
`cosine_similarity(vectorizer.transform([requete_enrichie]), matrice)`,
a function of the enriched query string and the row index. -/
def rechercher (m : Moteur) (simOracle : String → ℕ → ℚ) (requete : String)
    (top_k : ℤ) : List Resultat :=
  if nettoyer requete = "" then []
  else
    let orig := motsOriginaux requete
    let enrichis := motsEnrichis orig
    let sim := simOracle (requeteEnrichie requete)
    let score := fun i => scoreCombine m sim orig enrichis i
    boucleTri top_k (fun i => seuilBruit < score i)
      (fun i => (m.series.getD i "", score i, formatDetails m sim orig enrichis i))
      (ordreDecroissant m.nb_series score) []

/-! ## Recommenders

`recommander_par_similarite` looks up the queried slug's row and ranks all
rows by cosine similarity to it; `recommander_par_profil` averages the
liked rows into a centroid and ranks by similarity to the centroid.  The
cosine computations are external (`cosine_similarity` on the stored
matrix), so they enter as oracles: `simMatrice idx i` is the similarity of
rows `idx` and `i`, and `simProfil indices i` is the similarity of the
centroid of `indices` (with multiplicity, in resolution order) to row `i`.
-/

/-- The relevance floor `0.15` of both recommenders. -/
def seuilReco : ℚ := 3 / 20

/-- `Moteur.recommander_par_similarite`. -/
def recommander_par_similarite (m : Moteur) (simMatrice : ℕ → ℕ → ℚ)
    (serie_nom : String) (top_k : ℤ) : List (String × ℚ) :=
  if serie_nom ∈ m.series then
    let idx := m.series.findIdx (fun s => s = serie_nom)
    let score := simMatrice idx
    boucleTri top_k (fun i => i ≠ idx ∧ seuilReco < score i)
      (fun i => (m.series.getD i "", score i))
      (ordreDecroissant m.nb_series score) []
  else []

/-- The resolution loop of `recommander_par_profil`: for each liked name
present in the corpus, record its (first) row index.  The source keeps a
list of row vectors and a set of indices; the index list below carries the
same information (the set is its underlying set, the vector list its
multiset of rows). -/
def indicesAimes (m : Moteur) (series_aimees : List String) : List ℕ :=
  series_aimees.foldl
    (fun acc nom =>
      if nom ∈ m.series then acc ++ [m.series.findIdx (fun s => s = nom)] else acc) []

/-- `Moteur.recommander_par_profil`. -/
def recommander_par_profil (m : Moteur) (simProfil : List ℕ → ℕ → ℚ)
    (series_aimees : List String) (top_k : ℤ) : List (String × ℚ) :=
  let indices := indicesAimes m series_aimees
  if indices.isEmpty then []
  else
    let score := simProfil indices
    boucleTri top_k (fun i => i ∉ indices ∧ seuilReco < score i)
      (fun i => (m.series.getD i "", score i))
      (ordreDecroissant m.nb_series score) []

/-! ## Corpus loader (`charger_sous_titres`)

The filesystem is modelled as data: one record per title subdirectory,
holding the directory name and the list of `(filename, text)` pairs, where
the text of a `.zip` entry is what `lire_zip` returns for it (the joined
decoded members) and the text of a `.srt`/`.txt` entry is what
`lire_fichier` returns (its decoded content, `""` on a read error — both
helpers swallow exceptions into `""`). -/

structure DossierSerie where
  nom : String
  fichiers : List (String × String)

/-- The accumulation of `texte_brut` over the files of one title
directory: zip archives and `.srt`/`.txt` files contribute their text
prefixed by one space; any other file is ignored. -/
def texteBrut (fichiers : List (String × String)) : String :=
  fichiers.foldl
    (fun acc fc =>
      if finitPar fc.1 ".zip" then acc ++ " " ++ fc.2
      else if finitPar fc.1 ".srt" ∨ finitPar fc.1 ".txt" then acc ++ " " ++ fc.2
      else acc) ""

/-- `(serie_nom + " ") * 5`. -/
def nomRepete (nom : String) : String :=
  nom ++ " " ++ (nom ++ " " ++ (nom ++ " " ++ (nom ++ " " ++ (nom ++ " "))))

/-- The per-title document: the title-boosted cleaned subtitle text when
any content was read, otherwise the fallback `nettoyer(serie_nom)`. -/
def documentDossier (d : DossierSerie) : String :=
  let tb := texteBrut d.fichiers
  if chaineBlanche tb then nettoyer d.nom
  else nettoyer (nomRepete d.nom ++ tb)

/-- `charger_sous_titres`: keep the non-hidden title directories
(`not d.startswith(('.', '__'))`; the input already stands for the
subdirectories only) and produce one `(slug, document)` entry for each —
the `else` branch never drops a directory. -/
def charger_sous_titres (dossiers : List DossierSerie) : List (String × String) :=
  (dossiers.filter
      (fun d => !(commencePar d.nom "." ∨ commencePar d.nom "__"))).map
    (fun d => (d.nom, documentDossier d))

/-! ## Engine bootstrap (`modules/engine.py : initialiser_moteur`)

The fitted index is written as one pickle blob and reloaded on start-up.
`pickle.load` either fails (any exception → the cache file is removed and
the engine is rebuilt from the corpus) or yields *some* object, which the
code installs as-is; `Option EtatMoteur` models that dichotomy.  The
matrix/vocabulary construction itself is the external `TfidfVectorizer`
fit, abstracted as the `fit` argument. -/

structure EtatMoteur where
  series : List String
  documents : List String
  matrice : List (List ℚ)
  vocabulaire : List String
  idf : List ℚ

/-- `Moteur.__init__` at the structural level: split the corpus dict into
key and value lists and run the vectorizer fit.
`fit docs = (matrice, vocabulaire, idf)`. -/
def construireEtat (fit : List String → List (List ℚ) × List String × List ℚ)
    (corpus : List (String × String)) : EtatMoteur :=
  let docs := corpus.map Prod.snd
  ⟨corpus.map Prod.fst, docs, (fit docs).1, (fit docs).2.1, (fit docs).2.2⟩

/-- The internal-consistency predicate the specification asks `load` to
check: matrix row count = title count and vocabulary length = idf-table
length. -/
def coherent (e : EtatMoteur) : Prop :=
  e.matrice.length = e.series.length ∧ e.vocabulaire.length = e.idf.length

/-- `initialiser_moteur`: if the cache blob deserialises, install it
unconditionally; otherwise rebuild, failing fatally (`sys.exit(1)` after
the `FATAL` log line) when the corpus is empty. -/
def initialiser_moteur (fit : List String → List (List ℚ) × List String × List ℚ)
    (cache : Option EtatMoteur) (corpus : List (String × String)) :
    Except String EtatMoteur :=
  match cache with
  | some etat => Except.ok etat
  | none =>
    if corpus.isEmpty then Except.error "FATAL: Aucun sous-titre chargé"
    else Except.ok (construireEtat fit corpus)

/-! ## The vector-space layer: `TfidfVectorizer` and `cosine_similarity`

External-collaborator model.  The `Moteur` constructor configures
`TfidfVectorizer(max_features=20000, ngram_range=(1, 3), sublinear_tf=True,
stop_words=...)` and scores with `cosine_similarity`.  The library is not
part of this repository, so this layer follows its documented semantics,
as restated by the specification (§4.3): token pattern `\w\w+` (every
input reaching the vectorizer is a `nettoyer` output, whose alphabet makes
word characters exactly the non-space characters), stop-word removal
before n-gram generation, uni/bi/tri-grams, an alphabet-ordered vocabulary
capped at 20000 terms by corpus frequency, smoothed idf
`ln((1+n)/(1+df)) + 1`, sub-linear tf `1 + ln(tf)`, and L2-normalised
rows.  `stop_words` is `nltk`'s English list or `None` depending on the
environment, so it stays a parameter. -/

/-- Lexicographic comparison of character lists by code point (the order
`numpy`/`sklearn` uses to sort the vocabulary of ASCII terms). -/
def lexLe : List Char → List Char → Bool
  | [], _ => true
  | _ :: _, [] => false
  | a :: as, b :: bs =>
    if a.toNat < b.toNat then true
    else if b.toNat < a.toNat then false
    else lexLe as bs

/-- The vectorizer's tokenizer on cleaned text: split on spaces and keep
the tokens of at least two characters (token pattern `\w\w+`). -/
def tokeniser (texte : String) : List String :=
  (decouperMots texte).filter (fun w => 2 ≤ w.length)

/-- The contiguous `n`-grams of a token list, space-joined. -/
def nGrammes (n : ℕ) (toks : List String) : List String :=
  (List.range (toks.length + 1 - n)).map (fun i => joindreEspaces ((toks.drop i).take n))

/-- The analyzer: tokenize, drop stop words, emit 1-, 2- and 3-grams. -/
def analyser (stop : List String) (texte : String) : List String :=
  let toks := (tokeniser texte).filter (fun w => !(stop.contains w))
  nGrammes 1 toks ++ nGrammes 2 toks ++ nGrammes 3 toks

/-- First-occurrence deduplication. -/
def uniques (l : List String) : List String :=
  l.foldl (fun acc t => if t ∈ acc then acc else acc ++ [t]) []

/-- Document frequency of a term over the analyzed corpus. -/
def frequenceDoc (stop : List String) (docs : List String) (t : String) : ℕ :=
  (docs.filter (fun d => (analyser stop d).contains t)).length

/-- Total corpus frequency of a term (the quantity `max_features` ranks
by). -/
def frequenceTotale (stop : List String) (docs : List String) (t : String) : ℕ :=
  docs.foldl (fun acc d => acc + (analyser stop d).count t) 0

/-- The fitted vocabulary: every analyzed n-gram of the corpus, in
alphabetical order, truncated to the 20000 most frequent terms when
larger (ties left to the sort; the cap never binds in any theorem
below). -/
def vocabulaireDe (stop : List String) (docs : List String) : List String :=
  let brut := (docs.foldl (fun acc d => acc ++ analyser stop d) []) |> uniques
  let trie := brut.insertionSort (fun a b => lexLe a.data b.data = true)
  if trie.length ≤ 20000 then trie
  else
    ((trie.insertionSort
        (fun a b => frequenceTotale stop docs b ≤ frequenceTotale stop docs a)).take
      20000).insertionSort (fun a b => lexLe a.data b.data = true)

/-- Smoothed inverse document frequency: `ln((1+n)/(1+df)) + 1`. -/
noncomputable def idfLisse (n df : ℕ) : ℝ :=
  Real.log ((1 + (n : ℝ)) / (1 + (df : ℝ))) + 1

/-- The fitted idf weight of a term. -/
noncomputable def idfAjuste (stop : List String) (docs : List String) (t : String) : ℝ :=
  idfLisse docs.length (frequenceDoc stop docs t)

/-- Sub-linear tf–idf weight of one cell: `0` when the term is absent,
`(1 + ln(tf)) * idf` otherwise. -/
noncomputable def poidsTf (tf : ℕ) (idf : ℝ) : ℝ :=
  if tf = 0 then 0 else (1 + Real.log (tf : ℝ)) * idf

/-- The unnormalised tf–idf row of a text over a fitted vocabulary. -/
noncomputable def ligneBrute (stop : List String) (vocab : List String)
    (idf : String → ℝ) (texte : String) : List ℝ :=
  vocab.map (fun t => poidsTf ((analyser stop texte).count t) (idf t))

/-- Euclidean norm of a row. -/
noncomputable def normeL2 (v : List ℝ) : ℝ :=
  Real.sqrt ((v.map (fun x => x ^ 2)).sum)

/-- L2 row normalisation (`norm='l2'`; an all-zero row stays zero, as in
`sklearn.preprocessing.normalize`). -/
noncomputable def normaliserLigne (v : List ℝ) : List ℝ :=
  if normeL2 v = 0 then v else v.map (fun x => x / normeL2 v)

/-- Dot product of two rows. -/
noncomputable def produitScalaire (u v : List ℝ) : ℝ :=
  (List.zipWith (fun a b => a * b) u v).sum

/-- The transform of one text against a fitted corpus. -/
noncomputable def transformer (stop : List String) (docs : List String)
    (texte : String) : List ℝ :=
  normaliserLigne (ligneBrute stop (vocabulaireDe stop docs) (idfAjuste stop docs) texte)

/-- `cosine_similarity(transform([requete]), matrice).flatten()`: both
sides are already L2-normalised (zero rows staying zero), so the cosine is
the plain dot product. -/
noncomputable def scoresTfidfDe (stop : List String) (docs : List String)
    (requete : String) : List ℝ :=
  docs.map (fun d => produitScalaire (transformer stop docs requete) (transformer stop docs d))

/-! ## Ranking-loop and sort-order lemmas -/

/-- Everything the ranking loop returns is either carried in from the
accumulator or is `item i` for some index `i` of the walked order whose
guard held. -/
theorem boucleTri_mem {α : Type} {top_k : ℤ} {garde : ℕ → Bool} {item : ℕ → α}
    {r : α} : ∀ {l : List ℕ} {acc : List α},
    r ∈ boucleTri top_k garde item l acc →
    r ∈ acc ∨ ∃ i ∈ l, garde i = true ∧ r = item i := by
  intro l
  induction l with
  | nil => intro acc h; exact Or.inl h
  | cons i rest ih =>
    intro acc h
    unfold boucleTri at h
    set acc' := if garde i then acc ++ [item i] else acc with hacc'
    by_cases hk : top_k ≤ (acc'.length : ℤ)
    · simp only [hk, if_pos] at h
      by_cases hg : garde i
      · rw [hacc', if_pos hg] at h
        rcases List.mem_append.1 h with h' | h'
        · exact Or.inl h'
        · exact Or.inr ⟨i, List.mem_cons_self .., by simpa using ⟨hg, List.mem_singleton.1 h'⟩⟩
      · rw [hacc', if_neg hg] at h
        exact Or.inl h
    · simp only [hk, if_neg, if_false] at h
      rcases ih h with h' | ⟨j, hj, hgj, hr⟩
      · by_cases hg : garde i
        · rw [hacc', if_pos hg] at h'
          rcases List.mem_append.1 h' with h'' | h''
          · exact Or.inl h''
          · exact Or.inr ⟨i, List.mem_cons_self .., hg, List.mem_singleton.1 h''⟩
        · rw [hacc', if_neg hg] at h'
          exact Or.inl h'
      · exact Or.inr ⟨j, List.mem_cons_of_mem _ hj, hgj, hr⟩

/-- Length bound for the ranking loop: the check `top_k ≤ len(resultats)`
happens only after an append, so at most `max top_k 1` results can
accumulate beyond the initial accumulator. -/
theorem boucleTri_length {α : Type} {top_k : ℤ} {garde : ℕ → Bool} {item : ℕ → α} :
    ∀ {l : List ℕ} {acc : List α},
    (boucleTri top_k garde item l acc).length ≤ max top_k.toNat (acc.length + 1) := by
  intro l
  induction l with
  | nil => intro acc; exact le_max_of_le_right (Nat.le_succ _)
  | cons i rest ih =>
    intro acc
    unfold boucleTri
    set acc' := if garde i then acc ++ [item i] else acc with hacc'
    have hlen : acc'.length ≤ acc.length + 1 := by
      rw [hacc']; split
      · simp
      · exact Nat.le_succ _
    by_cases hk : top_k ≤ (acc'.length : ℤ)
    · simp only [hk, if_pos]
      exact le_max_of_le_right hlen
    · simp only [hk, if_neg, if_false]
      refine le_trans ih (max_le (le_max_left _ _) ?_)
      have : (acc'.length : ℤ) < top_k := lt_of_not_le hk
      have h1 : acc'.length + 1 ≤ top_k.toNat := by omega
      exact le_max_of_le_left h1

/-- When no guard on the walked order holds, the loop returns its
accumulator unchanged. -/
theorem boucleTri_aucun {α : Type} {top_k : ℤ} {garde : ℕ → Bool} {item : ℕ → α} :
    ∀ {l : List ℕ} {acc : List α}, (∀ i ∈ l, garde i = false) →
    boucleTri top_k garde item l acc = acc := by
  intro l
  induction l with
  | nil => intro acc _; rfl
  | cons i rest ih =>
    intro acc h
    have hg : garde i = false := h i (List.mem_cons_self ..)
    simp only [boucleTri, hg, Bool.false_eq_true, if_false]
    split
    · rfl
    · exact ih (fun j hj => h j (List.mem_cons_of_mem _ hj))

/-- With a non-positive `top_k`, the loop stops right after its first
append: a guarded head yields exactly one result. -/
theorem boucleTri_topk_nonpos {α : Type} {top_k : ℤ} {garde : ℕ → Bool}
    {item : ℕ → α} {i : ℕ} {rest : List ℕ} (hk : top_k ≤ 1) (hg : garde i = true) :
    boucleTri top_k garde item (i :: rest) [] = [item i] := by
  unfold boucleTri
  rw [if_pos hg]
  simp only [List.nil_append, List.length_singleton]
  rw [if_pos (by exact_mod_cast hk)]

/-- The descending order is a permutation of `range n`. -/
theorem ordreDecroissant_perm (n : ℕ) (score : ℕ → ℚ) :
    (ordreDecroissant n score).Perm (List.range n) :=
  List.perm_insertionSort _ _

/-- Membership in the descending order is exactly `i < n`. -/
theorem mem_ordreDecroissant {n i : ℕ} {score : ℕ → ℚ} :
    i ∈ ordreDecroissant n score ↔ i < n := by
  rw [(ordreDecroissant_perm n score).mem_iff, List.mem_range]

/-- The descending order is sorted by non-increasing score. -/
theorem ordreDecroissant_sorted (n : ℕ) (score : ℕ → ℚ) :
    List.Sorted (fun a b => score b ≤ score a) (ordreDecroissant n score) := by
  haveI : IsTotal ℕ (fun a b => score b ≤ score a) :=
    ⟨fun a b => (le_total (score b) (score a)).imp id id⟩
  haveI : IsTrans ℕ (fun a b => score b ≤ score a) :=
    ⟨fun _ _ _ hab hbc => le_trans hbc hab⟩
  exact List.sorted_insertionSort _ _

/-- On a duplicate-free list, looking up the first index of the `i`-th
element returns `i` (Python's `list.index` against a dict-key list). -/
theorem findIdx_getElem_nodup {l : List String} (hnd : l.Nodup) :
    ∀ {i : ℕ} (hi : i < l.length), l.findIdx (fun s => s = l[i]) = i := by
  induction l with
  | nil => intro i hi; simp at hi
  | cons a t ih =>
    intro i hi
    match i with
    | 0 => simp [List.findIdx_cons]
    | j + 1 =>
      have hj : j < t.length := by simpa using hi
      have ha : a ∉ t := (List.nodup_cons.1 hnd).1
      have hne : ¬(a = t[j]) := fun h => ha (h ▸ List.getElem_mem hj)
      rw [List.findIdx_cons]
      simp only [List.getElem_cons_succ]
      rw [show (decide (a = t[j])) = false by simpa using hne]
      simp [ih (List.nodup_cons.1 hnd).2 hj]

/-- A fold accumulating `f mot` over the elements passing `p` equals the
starting value plus the sum over the filtered list. -/
theorem foldl_filtre_somme (p : String → Bool) (f : String → ℚ) :
    ∀ (l : List String) (a : ℚ),
    l.foldl (fun acc mot => if p mot = true then acc + f mot else acc) a
      = a + ((l.filter p).map f).sum := by
  intro l
  induction l with
  | nil => intro a; simp
  | cons x t ih =>
    intro a
    by_cases hx : p x
    · simp only [List.foldl_cons, hx, if_pos, List.filter_cons_of_pos, List.map_cons,
        List.sum_cons]
      rw [ih]
      ring
    · simp only [List.foldl_cons, hx, List.filter_cons_of_neg, if_neg, if_false]
      rw [ih]
      simp [hx]

/-! ## The claims

Concrete witnesses evaluate the rational scoring pipeline inside `decide`;
the arithmetic of `ℚ` in core is sealed for performance, so it is re-opened
to definitional unfolding here. -/

unseal Rat.add Rat.mul Rat.inv Rat.sub

/-- **C6.**  For the empty corpus (no titles), building the vector index
fails with a descriptive error (`sys.exit(1)` after the `FATAL` log line in
`initialiser_moteur`) rather than producing an index. -/
theorem claim_C6 (fit : List String → List (List ℚ) × List String × List ℚ) :
    initialiser_moteur fit none [] = Except.error "FATAL: Aucun sous-titre chargé" :=
  rfl

/-- A deserialised cache state violating both internal-consistency checks
the specification asks for: one matrix row against two titles, one
vocabulary term against an empty idf table. -/
def etatIncoherent : EtatMoteur :=
  ⟨["lostvf", "breakingbad"], ["island", "meth"], [[1]], ["island"], []⟩

/-- **C5, counterexample.**  `initialiser_moteur` installs a successfully
deserialised cache blob as-is: the incoherent state above (matrix row
count ≠ title count, vocabulary length ≠ idf length) is returned as a
valid engine, so no cache-corrupt condition is signalled. -/
theorem claim_C5_counterexample :
    initialiser_moteur (fun _ => ([], [], [])) (some etatIncoherent) [("lostvf", "island")]
      = Except.ok etatIncoherent ∧ ¬ coherent etatIncoherent := by
  refine ⟨rfl, fun h => ?_⟩
  have h1 := h.1
  simp [etatIncoherent] at h1

/-- **C5, amended.**  The snapshot load performs no internal-consistency
validation: every successfully deserialised blob — consistent or not — is
installed unchanged as the engine state; only a deserialisation failure
(the `none` branch) triggers the rebuild path. -/
theorem claim_C5_amended :
    (∀ (fit : List String → List (List ℚ) × List String × List ℚ)
        (etat : EtatMoteur) (corpus : List (String × String)),
      initialiser_moteur fit (some etat) corpus = Except.ok etat) ∧
    (∃ etat : EtatMoteur, ¬ coherent etat ∧
      ∀ (fit : List String → List (List ℚ) × List String × List ℚ)
          (corpus : List (String × String)),
        initialiser_moteur fit (some etat) corpus = Except.ok etat) := by
  refine ⟨fun _ _ _ => rfl, ⟨⟨[], [], [[1]], [], []⟩, fun h => ?_, fun _ _ => rfl⟩⟩
  have h1 := h.1
  simp at h1

/-- **C7.**  Every non-hidden title directory yields an entry of the
corpus, and when its files hold no readable caption content the document
falls back to the normalised title name — no title directory is silently
dropped. -/
theorem claim_C7 (dossiers : List DossierSerie) (d : DossierSerie)
    (hmem : d ∈ dossiers)
    (hnom : commencePar d.nom "." = false ∧ commencePar d.nom "__" = false) :
    (d.nom, documentDossier d) ∈ charger_sous_titres dossiers ∧
    (chaineBlanche (texteBrut d.fichiers) = true → documentDossier d = nettoyer d.nom) := by
  constructor
  · unfold charger_sous_titres
    refine List.mem_map.2 ⟨d, List.mem_filter.2 ⟨hmem, ?_⟩, rfl⟩
    simp [hnom.1, hnom.2]
  · intro hblanc
    unfold documentDossier
    rw [if_pos hblanc]

/-- Witness for C7: a title directory holding a single unreadable
(non-caption) file is kept, with the normalised title name as its
document. -/
theorem claim_C7_witness :
    ("lostvf", documentDossier ⟨"lostvf", [("apercu.mp4", "binaire")]⟩)
        ∈ charger_sous_titres [⟨"lostvf", [("apercu.mp4", "binaire")]⟩] ∧
    (chaineBlanche (texteBrut (⟨"lostvf", [("apercu.mp4", "binaire")]⟩ : DossierSerie).fichiers) = true →
      documentDossier ⟨"lostvf", [("apercu.mp4", "binaire")]⟩ = nettoyer "lostvf") :=
  claim_C7 [⟨"lostvf", [("apercu.mp4", "binaire")]⟩] ⟨"lostvf", [("apercu.mp4", "binaire")]⟩
    (List.mem_singleton.2 rfl) (by decide)

/-- Modelled from the spec (§4.4 step 4): for each title, for every
enriched query term appearing as a literal substring of that title's
document text, accumulate that term's IDF weight; divide the accumulated
sum by the number of original (pre-enrichment) query terms. -/
def bonusContexteSpec (m : Moteur) (requete : String) (i : ℕ) : ℚ :=
  (((motsEnrichis (motsOriginaux requete)).filter
        (fun t => contientSousChaine (m.documents.getD i "") t)).map m.idfValeur).sum
    / ((motsOriginaux requete).length : ℚ)

/-- **C2.**  The contextual-overlap bonus computed by `rechercher` equals
the specification's formula: the sum of the IDF weights of the enriched
terms found as substrings of the title's document, divided by the number
of original query terms.  (For an empty cleaned query both sides are `0`:
the enriched set is empty.) -/
theorem claim_C2 (m : Moteur) (requete : String) (i : ℕ) :
    bonusContexteIdf m (motsOriginaux requete) (motsEnrichis (motsOriginaux requete)) i
      = bonusContexteSpec m requete i := by
  unfold bonusContexteIdf bonusContexteSpec totalIdfMatch normalisationMots
  rw [foldl_filtre_somme, zero_add]
  rcases Nat.eq_zero_or_pos (motsOriginaux requete).length with h0 | hpos
  · rw [List.length_eq_zero] at h0
    rw [h0]
    simp [motsEnrichis]
  · rw [if_pos hpos]

/-- The corpus of the C1 counterexample: the `lostvf` document contains the
enrichment target `plane` but not the original query term `avion`. -/
def moteurC1 : Moteur :=
  ⟨[("lostvf", "island plane wreck"), ("breakingbad", "meth drug")], fun _ => none⟩

/-- **C1, counterexample.**  For the query `"avion"` against `moteurC1`,
the enriched term set is `{avion, plane}` and only one of its two terms is
found in the `lostvf` document — strictly fewer than 75 % of the enriched
terms — yet the thematic boost fires (it is `W_ICONIQUE_BOOST = 5`) and
flows into the combined score.  The code thresholds on 75 % of the
*original* term count, not of the enriched term count. -/
theorem claim_C1_counterexample :
    bonusIconique moteurC1 (motsOriginaux "avion") (motsEnrichis (motsOriginaux "avion")) 0
        = W_ICONIQUE_BOOST ∧
    scoreCombine moteurC1 (fun _ => 0) (motsOriginaux "avion")
        (motsEnrichis (motsOriginaux "avion")) 0 = 20 ∧
    ((motsTrouves moteurC1 (motsEnrichis (motsOriginaux "avion")) 0 : ℚ)
        < ((motsEnrichis (motsOriginaux "avion")).length : ℚ) * (3 / 4)) := by
  decide

/-- **C1, amended.**  The thematic boost is added to a title's combined
score only if the number of enriched query terms found as substrings of
the title's document is at least 75 % of the number of *original* query
terms. -/
theorem claim_C1_amended (m : Moteur) (requete : String) (i : ℕ)
    (h : bonusIconique m (motsOriginaux requete) (motsEnrichis (motsOriginaux requete)) i ≠ 0) :
    (normalisationMots (motsOriginaux requete) : ℚ) * (3 / 4)
      ≤ (motsTrouves m (motsEnrichis (motsOriginaux requete)) i : ℚ) := by
  unfold bonusIconique at h
  by_cases hseuil : (normalisationMots (motsOriginaux requete) : ℚ) * (3 / 4)
      ≤ (motsTrouves m (motsEnrichis (motsOriginaux requete)) i : ℚ)
  · exact hseuil
  · exact absurd (if_neg hseuil) h

/-- Witness for the amended C1 at the counterexample input: the boost
fires there and the found count (1) is at least 75 % of the original
count (1). -/
theorem claim_C1_witness :
    (normalisationMots (motsOriginaux "avion") : ℚ) * (3 / 4)
      ≤ (motsTrouves moteurC1 (motsEnrichis (motsOriginaux "avion")) 0 : ℚ) :=
  claim_C1_amended moteurC1 "avion" 0 (by decide)

/-- The title list has one entry per corpus entry. -/
theorem series_length (m : Moteur) : m.series.length = m.nb_series := by
  simp [Moteur.series, Moteur.nb_series]


/-- The per-title combined score of a query, with the oracle applied to
the enriched query string (the locals `orig`, `enrichis`, `sim`, `score`
of `rechercher`, promoted to a named function). -/
def scoreRequete (m : Moteur) (o : String → ℕ → ℚ) (requete : String) : ℕ → ℚ :=
  fun i => scoreCombine m (o (requeteEnrichie requete)) (motsOriginaux requete)
    (motsEnrichis (motsOriginaux requete)) i

/-- The result tuple `rechercher` appends for index `i`. -/
def resultatRequete (m : Moteur) (o : String → ℕ → ℚ) (requete : String) (i : ℕ) :
    Resultat :=
  (m.series.getD i "", scoreRequete m o requete i,
    formatDetails m (o (requeteEnrichie requete)) (motsOriginaux requete)
      (motsEnrichis (motsOriginaux requete)) i)

/-- Unfolding equation of `rechercher` on a non-empty cleaned query. -/
theorem rechercher_eq (m : Moteur) (o : String → ℕ → ℚ) (requete : String)
    (top_k : ℤ) (h : ¬ nettoyer requete = "") :
    rechercher m o requete top_k
      = boucleTri top_k (fun i => seuilBruit < scoreRequete m o requete i)
          (resultatRequete m o requete)
          (ordreDecroissant m.nb_series (scoreRequete m o requete)) [] := by
  unfold rechercher
  rw [if_neg h]
  rfl

/-- **C9.**  Degenerate queries yield normal empty results: the empty
query to `rechercher`; a query whose combined scores all stay at or below
the noise threshold; an unknown slug to `recommander_par_similarite`; a
liked list resolving to no known slug in `recommander_par_profil`. -/
theorem claim_C9 :
    (∀ (m : Moteur) (o : String → ℕ → ℚ) (top_k : ℤ), rechercher m o "" top_k = []) ∧
    (∀ (m : Moteur) (o : String → ℕ → ℚ) (requete : String) (top_k : ℤ),
      (∀ i < m.nb_series, scoreRequete m o requete i ≤ seuilBruit) →
      rechercher m o requete top_k = []) ∧
    (∀ (m : Moteur) (simM : ℕ → ℕ → ℚ) (nom : String) (top_k : ℤ),
      nom ∉ m.series → recommander_par_similarite m simM nom top_k = []) ∧
    (∀ (m : Moteur) (simP : List ℕ → ℕ → ℚ) (liked : List String) (top_k : ℤ),
      (∀ nom ∈ liked, nom ∉ m.series) → recommander_par_profil m simP liked top_k = []) := by
  refine ⟨fun m o k => ?_, fun m o requete k h => ?_, fun m simM nom k h => ?_,
    fun m simP liked k h => ?_⟩
  · unfold rechercher
    rw [if_pos (by decide)]
  · by_cases hvide : nettoyer requete = ""
    · unfold rechercher
      rw [if_pos hvide]
    · rw [rechercher_eq m o requete k hvide]
      exact boucleTri_aucun (fun i hi => by
        have hlt : i < m.nb_series := mem_ordreDecroissant.1 hi
        simpa using not_lt.2 (h i hlt))
  · unfold recommander_par_similarite
    rw [if_neg h]
  · have hvide : indicesAimes m liked = [] := by
      unfold indicesAimes
      induction liked with
      | nil => rfl
      | cons a t ih =>
        simp only [List.foldl_cons]
        rw [if_neg (h a (List.mem_cons_self ..))]
        exact ih (fun nom hnom => h nom (List.mem_cons_of_mem _ hnom))
    unfold recommander_par_profil
    rw [hvide]
    rfl

/-- Witness for C9: the empty query, the unmatched query `"zzz"`, the
unknown slug `"inconnu"`, and a liked list of only unknown slugs all
return `[]` on the concrete two-title engine. -/
theorem claim_C9_witness :
    rechercher moteurC1 (fun _ _ => 0) "" 5 = [] ∧
    rechercher moteurC1 (fun _ _ => 0) "zzz" 5 = [] ∧
    recommander_par_similarite moteurC1 (fun _ _ => 1) "inconnu" 5 = [] ∧
    recommander_par_profil moteurC1 (fun _ _ => 1) ["inconnu"] 5 = [] :=
  ⟨claim_C9.1 moteurC1 (fun _ _ => 0) 5,
   claim_C9.2.1 moteurC1 (fun _ _ => 0) "zzz" 5 (by decide),
   claim_C9.2.2.1 moteurC1 (fun _ _ => 1) "inconnu" 5 (by decide),
   claim_C9.2.2.2 moteurC1 (fun _ _ => 1) ["inconnu"] 5 (by decide)⟩

/-- **C10.**  The ranking loop tests `top_k ≤ len(resultats)` only after
appending, so (i) a search never returns more than `max top_k 1` results,
and (ii) with `top_k ≤ 0` it still returns exactly one result whenever
some title's combined score clears the noise threshold on a non-empty
cleaned query. -/
theorem claim_C10 :
    (∀ (m : Moteur) (o : String → ℕ → ℚ) (requete : String) (top_k : ℤ),
      (rechercher m o requete top_k).length ≤ max top_k.toNat 1) ∧
    (∀ (m : Moteur) (o : String → ℕ → ℚ) (requete : String) (top_k : ℤ),
      top_k ≤ 0 → nettoyer requete ≠ "" →
      (∃ i < m.nb_series, seuilBruit < scoreRequete m o requete i) →
      (rechercher m o requete top_k).length = 1) := by
  constructor
  · intro m o requete k
    by_cases hvide : nettoyer requete = ""
    · unfold rechercher
      rw [if_pos hvide]
      simp
    · rw [rechercher_eq m o requete k hvide]
      exact le_trans boucleTri_length (by simp)
  · intro m o requete k hk hreq ⟨i, hi, hscore⟩
    rw [rechercher_eq m o requete k hreq]
    have hne : ordreDecroissant m.nb_series (scoreRequete m o requete) ≠ [] := by
      intro hnil
      have hlen := (ordreDecroissant_perm m.nb_series (scoreRequete m o requete)).length_eq
      rw [hnil] at hlen
      simp at hlen
      omega
    obtain ⟨j, rest, hcons⟩ := List.exists_cons_of_ne_nil hne
    have hmemi : i ∈ ordreDecroissant m.nb_series (scoreRequete m o requete) :=
      mem_ordreDecroissant.2 hi
    have hsorted := ordreDecroissant_sorted m.nb_series (scoreRequete m o requete)
    rw [hcons] at hsorted hmemi
    have hji : scoreRequete m o requete i ≤ scoreRequete m o requete j := by
      rcases List.mem_cons.1 hmemi with hij | hmem
      · rw [hij]
      · exact List.rel_of_sorted_cons hsorted i hmem
    have hgj : seuilBruit < scoreRequete m o requete j := lt_of_lt_of_le hscore hji
    rw [hcons, boucleTri_topk_nonpos (le_trans hk (by decide)) (by simpa using hgj)]
    rfl

/-- Witness for C10 at `top_k = 0`: on the concrete engine the query
`"avion"` clears the threshold, and the search returns exactly one result
(within the `max 0 1 = 1` bound). -/
theorem claim_C10_witness :
    (rechercher moteurC1 (fun _ _ => 0) "avion" 0).length ≤ max (0:ℤ).toNat 1 ∧
    (rechercher moteurC1 (fun _ _ => 0) "avion" 0).length = 1 :=
  ⟨claim_C10.1 moteurC1 (fun _ _ => 0) "avion" 0,
   claim_C10.2 moteurC1 (fun _ _ => 0) "avion" 0 (by decide) (by decide)
     ⟨0, by decide, by decide⟩⟩

/-- Every liked slug found in the corpus contributes its first row index
to the resolved index list of `recommander_par_profil`. -/
theorem mem_indicesAimes {m : Moteur} {liked : List String} {nom : String}
    (hliked : nom ∈ liked) (hserie : nom ∈ m.series) :
    m.series.findIdx (fun s => s = nom) ∈ indicesAimes m liked := by
  unfold indicesAimes
  have hmono : ∀ (t : List String) (acc : List ℕ) (x : ℕ), x ∈ acc →
      x ∈ t.foldl (fun acc nom' =>
        if nom' ∈ m.series then acc ++ [m.series.findIdx (fun s => s = nom')] else acc) acc := by
    intro t
    induction t with
    | nil => intro acc x hx; exact hx
    | cons a t' ih =>
      intro acc x hx
      simp only [List.foldl_cons]
      split
      · exact ih _ _ (List.mem_append_left _ hx)
      · exact ih _ _ hx
  suffices h : ∀ (l : List String) (acc : List ℕ), nom ∈ l →
      m.series.findIdx (fun s => s = nom) ∈ l.foldl (fun acc nom' =>
        if nom' ∈ m.series then acc ++ [m.series.findIdx (fun s => s = nom')] else acc) acc by
    exact h liked [] hliked
  intro l
  induction l with
  | nil => intro acc h; simp at h
  | cons a t ih =>
    intro acc hmem
    simp only [List.foldl_cons]
    rcases List.mem_cons.1 hmem with hna | hnt
    · rw [hna] at hserie ⊢
      rw [if_pos hserie]
      exact hmono t _ _ (List.mem_append_right _ (List.mem_singleton.2 rfl))
    · split
      · exact ih _ hnt
      · exact ih _ hnt

/-- **C8.**  With duplicate-free corpus keys (dict keys always are),
`recommander_par_similarite` never returns the queried slug itself, and
`recommander_par_profil` never returns any of the liked slugs. -/
theorem claim_C8 :
    (∀ (m : Moteur) (simM : ℕ → ℕ → ℚ) (nom : String) (top_k : ℤ) (r : String × ℚ),
      m.series.Nodup → r ∈ recommander_par_similarite m simM nom top_k → r.1 ≠ nom) ∧
    (∀ (m : Moteur) (simP : List ℕ → ℕ → ℚ) (liked : List String) (top_k : ℤ)
        (r : String × ℚ),
      m.series.Nodup → r ∈ recommander_par_profil m simP liked top_k → r.1 ∉ liked) := by
  constructor
  · intro m simM nom k r hnd hr
    unfold recommander_par_similarite at hr
    by_cases hnom : nom ∈ m.series
    · rw [if_pos hnom] at hr
      rcases boucleTri_mem hr with habs | ⟨i, hi, hgarde, hitem⟩
      · simp at habs
      · have hin : i < m.nb_series := mem_ordreDecroissant.1 hi
        have hilen : i < m.series.length := by rw [series_length]; exact hin
        have hine : i ≠ m.series.findIdx (fun s => s = nom) := by
          simpa using (of_decide_eq_true hgarde).1
        intro hr1
        rw [hitem] at hr1
        simp only at hr1
        rw [List.getD_eq_getElem _ _ hilen] at hr1
        rw [← hr1] at hine
        exact hine (findIdx_getElem_nodup hnd hilen).symm
    · rw [if_neg hnom] at hr
      simp at hr
  · intro m simP liked k r hnd hr
    unfold recommander_par_profil at hr
    by_cases hvide : (indicesAimes m liked).isEmpty
    · rw [if_pos hvide] at hr
      simp at hr
    · rw [if_neg hvide] at hr
      rcases boucleTri_mem hr with habs | ⟨i, hi, hgarde, hitem⟩
      · simp at habs
      · have hin : i < m.nb_series := mem_ordreDecroissant.1 hi
        have hilen : i < m.series.length := by rw [series_length]; exact hin
        have hnotin : i ∉ indicesAimes m liked := by
          simpa using (of_decide_eq_true hgarde).1
        intro hr1
        have hr1' : m.series[i] ∈ liked := by
          rw [hitem] at hr1
          simp only at hr1
          rw [List.getD_eq_getElem _ _ hilen] at hr1
          exact hr1
        have hserie : m.series[i] ∈ m.series := List.getElem_mem hilen
        have := mem_indicesAimes hr1' hserie
        rw [findIdx_getElem_nodup hnd hilen] at this
        exact hnotin this

/-- Witness for C8 on the concrete engine: the neighbour recommendation
for `lostvf` and the profile recommendation for `[lostvf]` both return
`("breakingbad", 1)`, which is neither the queried slug nor a liked
slug. -/
theorem claim_C8_witness :
    (("breakingbad", (1 : ℚ)) : String × ℚ).1 ≠ "lostvf" ∧
    (("breakingbad", (1 : ℚ)) : String × ℚ).1 ∉ ["lostvf"] :=
  ⟨claim_C8.1 moteurC1 (fun _ _ => 1) "lostvf" 5 ("breakingbad", 1) (by decide) (by decide),
   claim_C8.2 moteurC1 (fun _ _ => 1) ["lostvf"] 5 ("breakingbad", 1) (by decide) (by decide)⟩

/-- The single-title corpus of the C3 counterexample: the query `"lostvf"`
is the title's own slug, so the title-match bonus fires. -/
def moteurC3 : Moteur :=
  ⟨[("lostvf", "lostvf story")], fun t => if t = "lostvf" then some 2 else none⟩

/-- The base-similarity oracle of the C3 counterexample. -/
def oracleC3 : String → ℕ → ℚ := fun _ _ => 1 / 2

/-- **C3, counterexample.**  On `moteurC3` the query `"lostvf"` earns a
title-match bonus of `3`, yet the returned breakdown holds only the keys
`tfidf`, `exact`, `frequence` and `contexte` — none of its values even
equals the title-match sub-score, so neither the title-match nor the
thematic sub-score is exposed, and `exact`/`contexte` both alias the
contextual bonus. -/
theorem claim_C3_counterexample :
    rechercher moteurC3 oracleC3 "lostvf" 1
      = [("lostvf", 69 / 2,
          [("tfidf", 1 / 2), ("exact", 2), ("frequence", 0), ("contexte", 2)])] ∧
    bonusTitre (motsOriginaux "lostvf") "lostvf" = 3 ∧
    ([("tfidf", (1 : ℚ) / 2), ("exact", 2), ("frequence", 0), ("contexte", 2)].all
        (fun p => p.2 ≠ 3)) = true := by
  decide

/-- **C3, amended.**  Every result of `rechercher` carries the breakdown
dictionary `{tfidf, exact, frequence, contexte}` where `tfidf` is the base
similarity, `exact` and `contexte` both carry the contextual-overlap
bonus, and `frequence` is constantly `0`; the thematic and title-match
sub-scores are not part of the record (`formatDetails` is the record's
exact shape). -/
theorem claim_C3_amended (m : Moteur) (o : String → ℕ → ℚ) (requete : String)
    (top_k : ℤ) (r : Resultat) (hr : r ∈ rechercher m o requete top_k) :
    ∃ i < m.nb_series, r = resultatRequete m o requete i ∧
      r.2.2 = [("tfidf", o (requeteEnrichie requete) i),
               ("exact", bonusContexteIdf m (motsOriginaux requete)
                  (motsEnrichis (motsOriginaux requete)) i),
               ("frequence", 0),
               ("contexte", bonusContexteIdf m (motsOriginaux requete)
                  (motsEnrichis (motsOriginaux requete)) i)] := by
  by_cases hvide : nettoyer requete = ""
  · rw [rechercher, if_pos hvide] at hr
    simp at hr
  · rw [rechercher_eq m o requete top_k hvide] at hr
    rcases boucleTri_mem hr with habs | ⟨i, hi, _, hitem⟩
    · simp at habs
    · exact ⟨i, mem_ordreDecroissant.1 hi, hitem, by rw [hitem]; rfl⟩

/-- Witness for the amended C3 at the counterexample input. -/
theorem claim_C3_witness :
    ∃ i < moteurC3.nb_series,
      (("lostvf", (69 : ℚ) / 2,
          [("tfidf", (1 : ℚ) / 2), ("exact", 2), ("frequence", 0), ("contexte", 2)]) : Resultat)
        = resultatRequete moteurC3 oracleC3 "lostvf" i ∧
      (("lostvf", (69 : ℚ) / 2,
          [("tfidf", (1 : ℚ) / 2), ("exact", 2), ("frequence", 0), ("contexte", 2)]) : Resultat).2.2
        = [("tfidf", oracleC3 (requeteEnrichie "lostvf") i),
           ("exact", bonusContexteIdf moteurC3 (motsOriginaux "lostvf")
              (motsEnrichis (motsOriginaux "lostvf")) i),
           ("frequence", 0),
           ("contexte", bonusContexteIdf moteurC3 (motsOriginaux "lostvf")
              (motsEnrichis (motsOriginaux "lostvf")) i)] :=
  claim_C3_amended moteurC3 oracleC3 "lostvf" 1 _ (by decide)

/-! ## Claim C4: enrichment versus base cosine similarity

The counterexample corpus has two one-word documents, `"avion"` and
`"plane"`.  The query `"avion"` is enriched (through the translation
table) to `"avion plane"`; against the `"avion"` document — which contains
the original term only — the un-enriched query scores cosine `1`, the
enriched query only `1/√2`: the added synonym enlarges the query's norm
without adding any overlap with that document. -/

theorem c4_vocab : vocabulaireDe [] ["avion", "plane"] = ["avion", "plane"] := by decide

theorem c4_requete : requeteEnrichie "avion" = "avion plane" := by decide

theorem c4_compte_aa : (analyser [] "avion").count "avion" = 1 := by decide
theorem c4_compte_ap : (analyser [] "avion").count "plane" = 0 := by decide
theorem c4_compte_pa : (analyser [] "plane").count "avion" = 0 := by decide
theorem c4_compte_pp : (analyser [] "plane").count "plane" = 1 := by decide
theorem c4_compte_ea : (analyser [] "avion plane").count "avion" = 1 := by decide
theorem c4_compte_ep : (analyser [] "avion plane").count "plane" = 1 := by decide

theorem c4_freq_avion : frequenceDoc [] ["avion", "plane"] "avion" = 1 := by decide
theorem c4_freq_plane : frequenceDoc [] ["avion", "plane"] "plane" = 1 := by decide

/-- The common idf weight of both vocabulary terms is positive. -/
theorem c4_idf_pos : 0 < idfLisse 2 1 := by
  unfold idfLisse
  have h : (0 : ℝ) < Real.log ((1 + (2 : ℕ)) / (1 + (1 : ℕ))) := by
    apply Real.log_pos
    push_cast
    norm_num
  linarith

theorem poidsTf_zero (w : ℝ) : poidsTf 0 w = 0 := by
  simp [poidsTf]

theorem poidsTf_un (w : ℝ) : poidsTf 1 w = w := by
  simp [poidsTf, Real.log_one]

theorem c4_idf_avion : idfAjuste [] ["avion", "plane"] "avion" = idfLisse 2 1 := by
  unfold idfAjuste
  rw [c4_freq_avion]
  rfl

theorem c4_idf_plane : idfAjuste [] ["avion", "plane"] "plane" = idfLisse 2 1 := by
  unfold idfAjuste
  rw [c4_freq_plane]
  rfl

theorem c4_transf_avion : transformer [] ["avion", "plane"] "avion" = [1, 0] := by
  have hc := c4_idf_pos
  unfold transformer
  rw [c4_vocab]
  have hligne : ligneBrute [] ["avion", "plane"] (idfAjuste [] ["avion", "plane"]) "avion"
      = [idfLisse 2 1, 0] := by
    simp only [ligneBrute, List.map_cons, List.map_nil, c4_compte_aa, c4_compte_ap,
      c4_idf_avion, c4_idf_plane, poidsTf_un, poidsTf_zero]
  rw [hligne]
  have hnorme : normeL2 [idfLisse 2 1, 0] = idfLisse 2 1 := by
    unfold normeL2
    simp only [List.map_cons, List.map_nil, List.sum_cons, List.sum_nil]
    rw [show idfLisse 2 1 ^ 2 + ((0:ℝ) ^ 2 + 0) = idfLisse 2 1 ^ 2 by ring]
    exact Real.sqrt_sq hc.le
  unfold normaliserLigne
  rw [hnorme, if_neg hc.ne']
  simp [div_self hc.ne']

theorem c4_transf_plane : transformer [] ["avion", "plane"] "plane" = [0, 1] := by
  have hc := c4_idf_pos
  unfold transformer
  rw [c4_vocab]
  have hligne : ligneBrute [] ["avion", "plane"] (idfAjuste [] ["avion", "plane"]) "plane"
      = [0, idfLisse 2 1] := by
    simp only [ligneBrute, List.map_cons, List.map_nil, c4_compte_pa, c4_compte_pp,
      c4_idf_avion, c4_idf_plane, poidsTf_un, poidsTf_zero]
  rw [hligne]
  have hnorme : normeL2 [0, idfLisse 2 1] = idfLisse 2 1 := by
    unfold normeL2
    simp only [List.map_cons, List.map_nil, List.sum_cons, List.sum_nil]
    rw [show (0:ℝ) ^ 2 + (idfLisse 2 1 ^ 2 + 0) = idfLisse 2 1 ^ 2 by ring]
    exact Real.sqrt_sq hc.le
  unfold normaliserLigne
  rw [hnorme, if_neg hc.ne']
  simp [div_self hc.ne']

theorem c4_transf_enrichie : transformer [] ["avion", "plane"] "avion plane"
    = [(Real.sqrt 2)⁻¹, (Real.sqrt 2)⁻¹] := by
  have hc := c4_idf_pos
  have h2 : (0:ℝ) < Real.sqrt 2 := Real.sqrt_pos.2 (by norm_num)
  unfold transformer
  rw [c4_vocab]
  have hligne : ligneBrute [] ["avion", "plane"] (idfAjuste [] ["avion", "plane"]) "avion plane"
      = [idfLisse 2 1, idfLisse 2 1] := by
    simp only [ligneBrute, List.map_cons, List.map_nil, c4_compte_ea, c4_compte_ep,
      c4_idf_avion, c4_idf_plane, poidsTf_un]
  rw [hligne]
  have hnorme : normeL2 [idfLisse 2 1, idfLisse 2 1] = Real.sqrt 2 * idfLisse 2 1 := by
    unfold normeL2
    simp only [List.map_cons, List.map_nil, List.sum_cons, List.sum_nil]
    rw [show idfLisse 2 1 ^ 2 + (idfLisse 2 1 ^ 2 + 0) = 2 * idfLisse 2 1 ^ 2 by ring]
    rw [Real.sqrt_mul (by norm_num) (idfLisse 2 1 ^ 2), Real.sqrt_sq hc.le]
  unfold normaliserLigne
  rw [hnorme, if_neg (by positivity)]
  have hdiv : idfLisse 2 1 / (Real.sqrt 2 * idfLisse 2 1) = (Real.sqrt 2)⁻¹ := by
    rw [mul_comm, ← div_div, div_self hc.ne', one_div]
  simp [hdiv]

/-- **C4, counterexample.**  `"avion"` has a synonym in the enrichment
table; the first document contains the original term and not the synonym;
yet the base cosine similarity of that document under the enriched query
(`1/√2`) is strictly *below* its similarity under the un-enriched query
(`1`): enrichment decreased the base similarity of a title matching only
the original term. -/
theorem claim_C4_counterexample :
    TRADUCTION_ENRICHISSEMENT.lookup "avion" = some "plane" ∧
    contientSousChaine "avion" "avion" = true ∧
    contientSousChaine "avion" "plane" = false ∧
    motsOriginaux "avion" = ["avion"] ∧
    (scoresTfidfDe [] ["avion", "plane"] (requeteEnrichie "avion")).headI
      < (scoresTfidfDe [] ["avion", "plane"] "avion").headI := by
  refine ⟨by decide, by decide, by decide, by decide, ?_⟩
  have h2 : (1:ℝ) < Real.sqrt 2 := by
    rw [show (1:ℝ) = Real.sqrt 1 by simp]
    exact Real.sqrt_lt_sqrt (by norm_num) (by norm_num)
  have hPlain : (scoresTfidfDe [] ["avion", "plane"] "avion").headI = 1 := by
    unfold scoresTfidfDe
    simp only [List.map_cons, List.map_nil, c4_transf_avion, c4_transf_plane, List.headI]
    unfold produitScalaire
    simp only [List.zipWith_cons_cons, List.zipWith_nil_right, List.sum_cons, List.sum_nil]
    norm_num
  have hEnr : (scoresTfidfDe [] ["avion", "plane"] "avion plane").headI
      = (Real.sqrt 2)⁻¹ := by
    unfold scoresTfidfDe
    simp only [List.map_cons, List.map_nil, c4_transf_enrichie, c4_transf_avion,
      c4_transf_plane, List.headI]
    unfold produitScalaire
    simp only [List.zipWith_cons_cons, List.zipWith_nil_right, List.sum_cons, List.sum_nil]
    norm_num
  rw [c4_requete, hEnr, hPlain]
  exact inv_lt_one_of_one_lt₀ h2

/-- A tf–idf cell weight is non-negative when the idf weight is. -/
theorem poidsTf_nonneg {tf : ℕ} {w : ℝ} (hw : 0 ≤ w) : 0 ≤ poidsTf tf w := by
  unfold poidsTf
  split
  · exact le_refl 0
  · have h1 : 1 ≤ tf := Nat.one_le_iff_ne_zero.2 (by assumption)
    have hlog : 0 ≤ Real.log tf := Real.log_nonneg (by exact_mod_cast h1)
    exact mul_nonneg (by linarith) hw

/-- A tf–idf cell weight is monotone in the term count when the idf
weight is non-negative. -/
theorem poidsTf_mono {a b : ℕ} {w : ℝ} (hw : 0 ≤ w) (h : a ≤ b) :
    poidsTf a w ≤ poidsTf b w := by
  rcases Nat.eq_zero_or_pos a with ha | ha
  · rw [ha, poidsTf_zero]
    exact poidsTf_nonneg hw
  · have ha' : a ≠ 0 := by omega
    have hb' : b ≠ 0 := by omega
    unfold poidsTf
    rw [if_neg ha', if_neg hb']
    refine mul_le_mul_of_nonneg_right ?_ hw
    have hca : (0 : ℝ) < (a : ℝ) := by exact_mod_cast ha
    have hcb : ((a : ℝ)) ≤ (b : ℝ) := by exact_mod_cast h
    have hlog := Real.log_le_log hca hcb
    linarith

/-- **C4, amended.**  What enrichment does guarantee is monotone
*pre-normalisation* matching: against any title row with non-negative
entries, a query whose per-vocabulary-term counts only grow (as they do
when terms are added to the query set) never scores a smaller raw tf–idf
dot product.  The cosine similarity itself can shrink — as the
counterexample shows — only because the enriched query's L2 norm grows. -/
theorem claim_C4_amended (stop vocab : List String) (idf ligne : String → ℝ)
    (q1 q2 : String)
    (hidf : ∀ t ∈ vocab, 0 ≤ idf t) (hligne : ∀ t ∈ vocab, 0 ≤ ligne t)
    (hcompte : ∀ t ∈ vocab, (analyser stop q1).count t ≤ (analyser stop q2).count t) :
    produitScalaire (ligneBrute stop vocab idf q1) (vocab.map ligne)
      ≤ produitScalaire (ligneBrute stop vocab idf q2) (vocab.map ligne) := by
  unfold produitScalaire ligneBrute
  rw [List.zipWith_map, List.zipWith_same, List.zipWith_map, List.zipWith_same]
  refine List.sum_le_sum (fun t ht => ?_)
  exact mul_le_mul_of_nonneg_right
    (poidsTf_mono (hidf t ht) (hcompte t ht)) (hligne t ht)

/-- Witness for the amended C4 at the counterexample's vocabulary: the
enriched query's counts dominate the un-enriched ones, so the raw dot
product against the `avion` row does not decrease. -/
theorem claim_C4_witness :
    produitScalaire (ligneBrute [] ["avion", "plane"] (fun _ => 1) "avion")
        (["avion", "plane"].map (fun t => if t = "avion" then 1 else 0))
      ≤ produitScalaire (ligneBrute [] ["avion", "plane"] (fun _ => 1) "avion plane")
        (["avion", "plane"].map (fun t => if t = "avion" then 1 else 0)) :=
  claim_C4_amended [] ["avion", "plane"] (fun _ => 1)
    (fun t => if t = "avion" then 1 else 0) "avion" "avion plane"
    (fun t _ => by norm_num)
    (fun t _ => by dsimp only; split <;> norm_num)
    (fun t ht => by fin_cases ht <;> decide)
